import Mathlib

/-!
Verification of the Turia Invaders simulation core.

Shallow embedding of the game's simulation layer: geometry utilities
(`rectIntersect` from `src/js/utils.js`), the entity state records
(`Bullet`, `Enemy`, `Player` from `src/js/entities/`), the formation
kinematics (`FormationController` from `src/js/entities/Enemy.js`),
the collision pass (`CollisionSystem` from
`src/js/systems/CollisionSystem.js`), the score/lives/power resource
machine and scoreboard (`ScoreSystem`), the boss-wave policy
(`SpawnSystem`), and the orchestration fragments of `PlayState` that
react to collision events.

Coordinates and gameplay scalars are modelled as rationals (the source
works on JS numbers; every operation used here is exact field
arithmetic and comparison).  Stateful methods become functions from
the old record to the new record, returning their JS return value
alongside.  The scoreboard's `localStorage` side channel is passed
explicitly as the persisted list.
-/

namespace Turia

/-- Static configuration (`CONFIG` in `src/js/config.js`), read-only
during a session.  Only the fields the verified components consume are
embedded. -/
structure Config where
  canvasWidth : ℚ
  canvasHeight : ℚ
  enemyWidth : ℚ
  enemyHeight : ℚ
  bulletWidth : ℚ
  bulletHeight : ℚ
  bulletSpeed : ℚ
  fireCooldown : ℚ
  enemySpeed : ℚ
  enemyStepDown : ℚ
  enemyStartX : ℚ
  bossSpawnWave : ℤ
  turiaPowerMax : ℚ
  turiaPowerPerKill : ℚ
  livesMax : ℤ
  scorePerKill : ℚ
  bottomLine : ℚ

/-- The reference configuration values from `src/js/config.js`. -/
def CONFIG : Config :=
  { canvasWidth := 800
    canvasHeight := 600
    enemyWidth := 48
    enemyHeight := 48
    bulletWidth := 4
    bulletHeight := 12
    bulletSpeed := 500
    fireCooldown := 200
    enemySpeed := 50
    enemyStepDown := 20
    enemyStartX := 100
    bossSpawnWave := 3
    turiaPowerMax := 100
    turiaPowerPerKill := 10
    livesMax := 3
    scorePerKill := 10
    bottomLine := 470 }

/-- An axis-aligned box given by top-left corner plus width/height,
the `{x, y, width, height}` records produced by every `getBounds`. -/
structure Rect where
  x : ℚ
  y : ℚ
  width : ℚ
  height : ℚ

/-- `rectIntersect` from `src/js/utils.js`: strict-inequality AABB
overlap test. -/
def rectIntersect (a b : Rect) : Bool :=
  decide (a.x < b.x + b.width) && decide (a.x + a.width > b.x) &&
  decide (a.y < b.y + b.height) && decide (a.y + a.height > b.y)

/-- The formation offset record `{x, y}` returned by
`FormationController.getOffset`. -/
structure FormationOffset where
  x : ℚ
  y : ℚ

/-- `Bullet` from `src/js/entities/Bullet.js` (simulation fields
only). -/
structure Bullet where
  x : ℚ
  y : ℚ
  velocityY : ℚ
  width : ℚ
  height : ℚ
  active : Bool

/-- The `Bullet` constructor: sizes come from `CONFIG.SIZES.bullet`,
newly created bullets are active. -/
def Bullet.create (cfg : Config) (x y velocityY : ℚ) : Bullet :=
  { x := x, y := y, velocityY := velocityY,
    width := cfg.bulletWidth, height := cfg.bulletHeight, active := true }

/-- `Bullet.getBounds`: box centred on the bullet position. -/
def Bullet.getBounds (b : Bullet) : Rect :=
  { x := b.x - b.width / 2, y := b.y - b.height / 2,
    width := b.width, height := b.height }

/-- `Bullet.destroy`: marks the bullet inactive. -/
def Bullet.destroy (b : Bullet) : Bullet :=
  { b with active := false }

/-- `Enemy` from `src/js/entities/Enemy.js` (simulation fields only:
local position within the formation, size, lifecycle flags and death
timer). -/
structure Enemy where
  localX : ℚ
  localY : ℚ
  width : ℚ
  height : ℚ
  alive : Bool
  dying : Bool
  deathTimer : ℚ
  deathDuration : ℚ

/-- `Enemy.getWorldPosition`: local position plus formation offset. -/
def Enemy.getWorldPosition (e : Enemy) (off : FormationOffset) : ℚ × ℚ :=
  (e.localX + off.x, e.localY + off.y)

/-- `Enemy.getBounds`: box centred on the world position. -/
def Enemy.getBounds (e : Enemy) (off : FormationOffset) : Rect :=
  { x := (e.getWorldPosition off).1 - e.width / 2,
    y := (e.getWorldPosition off).2 - e.height / 2,
    width := e.width, height := e.height }

/-- `Enemy.kill`: starts the death animation (no-op on a dead enemy). -/
def Enemy.kill (e : Enemy) : Enemy :=
  if !e.alive then e
  else { e with dying := true, deathTimer := e.deathDuration }

/-- The lifecycle part of `Enemy.update`: the death timer counts down
in milliseconds from a seconds delta; on expiry the enemy is removed
(neither alive nor dying). -/
def Enemy.stepLifecycle (e : Enemy) (dt : ℚ) : Enemy :=
  if e.dying then
    let t := e.deathTimer - dt * 1000
    if t ≤ 0 then { e with deathTimer := t, alive := false, dying := false }
    else { e with deathTimer := t }
  else e

/-- `FormationController` state from `src/js/entities/Enemy.js`: the
shared translation for the whole enemy grid, the sweep direction
(`1` right, `-1` left), the sweep speed, the step-down distance, and
the horizontal bounds. -/
structure FormationController where
  offsetX : ℚ
  offsetY : ℚ
  direction : ℚ
  speed : ℚ
  stepDownAmount : ℚ
  minX : ℚ
  maxX : ℚ

/-- The `aliveEnemies` filter used by `FormationController.update`:
an enemy keeps influencing the formation while alive or dying. -/
def aliveOrDying (e : Enemy) : Bool :=
  e.alive || e.dying

/-- World-space left edge of an enemy under horizontal offset `ox`
(`worldX - enemy.width / 2` in the source). -/
def enemyLeftEdge (ox : ℚ) (e : Enemy) : ℚ :=
  e.localX + ox - e.width / 2

/-- World-space right edge of an enemy under horizontal offset `ox`
(`worldX + enemy.width / 2` in the source). -/
def enemyRightEdge (ox : ℚ) (e : Enemy) : ℚ :=
  e.localX + ox + e.width / 2

/-- First half of `FormationController.update`: refresh `maxX` from
the configuration and advance the horizontal offset. -/
def FormationController.advance (cfg : Config) (fc : FormationController) (dt : ℚ) :
    FormationController :=
  { fc with maxX := cfg.canvasWidth - cfg.enemyStartX,
            offsetX := fc.offsetX + fc.speed * fc.direction * dt }

/-- Second half of `FormationController.update`: the boundary check.
The source folds `Math.min`/`Math.max` starting from `±Infinity` over
the alive-or-dying enemies, modelled by folding in `WithTop ℚ` /
`WithBot ℚ` from `⊤` / `⊥`; when the set is empty it returns without
touching direction or offsets, and otherwise at most one of the two
reversal branches fires. -/
def FormationController.applyBoundsCheck (fc : FormationController) (enemies : List Enemy) :
    FormationController :=
  if (enemies.filter aliveOrDying).isEmpty then fc
  else
    if ((fc.maxX : WithBot ℚ) ≤
          (enemies.filter aliveOrDying).foldl
            (fun m e => max m (enemyRightEdge fc.offsetX e : WithBot ℚ)) ⊥) ∧
        0 < fc.direction then
      { fc with direction := -1, offsetY := fc.offsetY + fc.stepDownAmount }
    else if ((enemies.filter aliveOrDying).foldl
          (fun m e => min m (enemyLeftEdge fc.offsetX e : WithTop ℚ)) ⊤ ≤
            (fc.minX : WithTop ℚ)) ∧
        fc.direction < 0 then
      { fc with direction := 1, offsetY := fc.offsetY + fc.stepDownAmount }
    else fc

/-- `FormationController.update`: advance, then boundary-check. -/
def FormationController.update (cfg : Config) (fc : FormationController) (dt : ℚ)
    (enemies : List Enemy) : FormationController :=
  (fc.advance cfg dt).applyBoundsCheck enemies

/-- `Player` from `src/js/entities/Player.js` (simulation fields
only).  The fire cooldown is tracked in milliseconds and counts down
to zero. -/
structure Player where
  x : ℚ
  y : ℚ
  width : ℚ
  height : ℚ
  speed : ℚ
  fireCooldown : ℚ
  fireCooldownMax : ℚ

/-- `Player.shoot`: when the cooldown has elapsed, reset it to the
configured maximum and return a fresh upward bullet spawned at the
ship's nose; otherwise return nothing and leave the player as is. -/
def Player.shoot (cfg : Config) (p : Player) : Option Bullet × Player :=
  if p.fireCooldown ≤ 0 then
    (some (Bullet.create cfg p.x (p.y - p.height / 2) (-cfg.bulletSpeed)),
     { p with fireCooldown := p.fireCooldownMax })
  else (none, p)

/-- A `bullet_enemy` collision event; the JS event carries references
to the hit bullet and enemy, modelled as their positions in the input
lists. -/
structure BEEvent where
  bulletIdx : ℕ
  enemyIdx : ℕ

/-- The per-enemy test of the bullet and power-attack passes: the
source skips an enemy when `!enemy.alive || enemy.dying`, and
otherwise tests AABB overlap against the enemy's world bounds. -/
def hitPred (bb : Rect) (off : FormationOffset) (e : Enemy) : Bool :=
  e.alive && !e.dying && rectIntersect bb (e.getBounds off)

/-- The inner loop of `checkBulletEnemyCollisions`: scan the enemies
in list order, start the death animation of the first one passing
`hitPred`, and break; returns the hit index and the updated list, or
`none` when nothing was hit. -/
def killFirstHit (bb : Rect) (off : FormationOffset) : List Enemy → Option (ℕ × List Enemy)
  | [] => none
  | e :: es =>
    if hitPred bb off e then some (0, e.kill :: es)
    else (killFirstHit bb off es).map (fun r => (r.1 + 1, e :: r.2))

/-- The outer loop of `checkBulletEnemyCollisions`: inactive bullets
are skipped; an active bullet that hits gets destroyed and produces
one event, and the mutated enemy list flows into the remaining
bullets.  `idx` is the position of the current bullet in the original
list. -/
def bulletEnemyPass (off : FormationOffset) :
    List Bullet → List Enemy → ℕ → List Bullet × List Enemy × List BEEvent
  | [], enemies, _ => ([], enemies, [])
  | b :: bs, enemies, idx =>
    if b.active then
      match killFirstHit b.getBounds off enemies with
      | some (i, enemies2) =>
        let r := bulletEnemyPass off bs enemies2 (idx + 1)
        (b.destroy :: r.1, r.2.1, ⟨idx, i⟩ :: r.2.2)
      | none =>
        let r := bulletEnemyPass off bs enemies (idx + 1)
        (b :: r.1, r.2.1, r.2.2)
    else
      let r := bulletEnemyPass off bs enemies (idx + 1)
      (b :: r.1, r.2.1, r.2.2)

/-- `CollisionSystem.checkBulletEnemyCollisions`: returns the updated
bullets and enemies together with the emitted `bullet_enemy` events,
in bullet order. -/
def checkBulletEnemyCollisions (bullets : List Bullet) (enemies : List Enemy)
    (off : FormationOffset) : List Bullet × List Enemy × List BEEvent :=
  bulletEnemyPass off bullets enemies 0

/-- The per-enemy test of `checkEnemyReachBottom`: the source skips an
enemy only when `!enemy.alive`, then compares the world bottom edge
(`worldY + height / 2`) against the bottom line. -/
def reachesBottomPred (off : FormationOffset) (bottomLine : ℚ) (e : Enemy) : Bool :=
  e.alive && decide ((e.getWorldPosition off).2 + e.height / 2 ≥ bottomLine)

/-- `CollisionSystem.checkEnemyReachBottom`: true as soon as one
not-skipped enemy has reached the bottom line (the source
short-circuits on the first such enemy and emits one
`enemy_reach_bottom` event). -/
def checkEnemyReachBottom (enemies : List Enemy) (off : FormationOffset)
    (bottomLine : ℚ) : Bool :=
  enemies.any (reachesBottomPred off bottomLine)

/-- `ScoreSystem` state from the score module: score, lives, the
TURIA POWER resource with its cap, and the current player name. -/
structure ScoreSystem where
  score : ℚ
  lives : ℤ
  turiaPower : ℚ
  turiaPowerMax : ℚ
  playerName : String

/-- The `ScoreSystem` constructor. -/
def ScoreSystem.init (cfg : Config) : ScoreSystem :=
  { score := 0, lives := cfg.livesMax, turiaPower := 0,
    turiaPowerMax := cfg.turiaPowerMax, playerName := "" }

/-- `ScoreSystem.addPower`: power accumulates but is clamped at the
maximum. -/
def ScoreSystem.addPower (s : ScoreSystem) (amount : ℚ) : ScoreSystem :=
  { s with turiaPower := min (s.turiaPower + amount) s.turiaPowerMax }

/-- `ScoreSystem.addKill`: add points to the score and charge the
power bar (the orchestrator calls it with the configured defaults). -/
def ScoreSystem.addKill (s : ScoreSystem) (points power : ℚ) : ScoreSystem :=
  ScoreSystem.addPower { s with score := s.score + points } power

/-- `ScoreSystem.isPowerReady`: power is ready when it reaches the
maximum. -/
def ScoreSystem.isPowerReady (s : ScoreSystem) : Bool :=
  decide (s.turiaPower ≥ s.turiaPowerMax)

/-- `ScoreSystem.consumePower`: all-or-nothing consumption, returning
whether the power was consumed. -/
def ScoreSystem.consumePower (s : ScoreSystem) : Bool × ScoreSystem :=
  if s.isPowerReady then (true, { s with turiaPower := 0 })
  else (false, s)

/-- `ScoreSystem.loseLife`: lives decrease but never below zero; the
new count is returned. -/
def ScoreSystem.loseLife (s : ScoreSystem) : ℤ × ScoreSystem :=
  (max 0 (s.lives - 1), { s with lives := max 0 (s.lives - 1) })

/-- `ScoreSystem.isGameOver`: no lives left. -/
def ScoreSystem.isGameOver (s : ScoreSystem) : Bool :=
  decide (s.lives ≤ 0)

/-- `ScoreSystem.reset`: new-game state. -/
def ScoreSystem.reset (cfg : Config) (s : ScoreSystem) : ScoreSystem :=
  { s with score := 0, lives := cfg.livesMax, turiaPower := 0 }

/-- `loseLife` applied `n` times in a row. -/
def loseLivesIter (s : ScoreSystem) : ℕ → ScoreSystem
  | 0 => s
  | n + 1 => (loseLivesIter s n).loseLife.2

/-- A persisted scoreboard record `{name, score, date}`. -/
structure ScoreEntry where
  name : String
  score : ℚ
  date : ℤ

/-- The comparator passed to the scoreboard sort, as a stable-sort
relation: `a` may stay before `b` when `b.score ≤ a.score`
(descending by score, ties keep their original order — JS
`Array.prototype.sort` is stable). -/
def scoreDescLe (a b : ScoreEntry) : Bool :=
  decide (b.score ≤ a.score)

/-- `ScoreSystem.saveScore`, with the `localStorage` list passed
explicitly: guard against empty name or non-positive score, append
the new entry, stable-sort descending by score, keep the top 10, and
return the persisted list together with the success flag. -/
def ScoreSystem.saveScore (s : ScoreSystem) (stored : List ScoreEntry) (now : ℤ) :
    Bool × List ScoreEntry :=
  if s.playerName = "" ∨ s.score ≤ 0 then (false, stored)
  else
    (true,
     ((stored ++ [({ name := s.playerName, score := s.score, date := now } : ScoreEntry)]).mergeSort
        scoreDescLe).take 10)

/-- The `PlayState.checkCollisions` fragment reacting to
`bullet_enemy` events: one `addKill()` with the configured defaults
per event. -/
def applyKillEvents (cfg : Config) (s : ScoreSystem) (events : List BEEvent) : ScoreSystem :=
  events.foldl (fun acc _ => acc.addKill cfg.scorePerKill cfg.turiaPowerPerKill) s

/-- The `PlayState.checkCollisions` fragment reacting to the
bottom-line check: one life lost when `checkEnemyReachBottom`
reports true. -/
def handleBottomCheck (cfg : Config) (s : ScoreSystem) (enemies : List Enemy)
    (off : FormationOffset) : ScoreSystem :=
  if checkEnemyReachBottom enemies off cfg.bottomLine then s.loseLife.2 else s

/-- `SpawnSystem.shouldSpawnBoss` from the spawn module. -/
def shouldSpawnBoss (cfg : Config) (waveNumber : ℤ) : Bool :=
  decide (waveNumber > 0) && decide (waveNumber % cfg.bossSpawnWave = 0)

end Turia

namespace Turia

/-- Each `loseLife` step keeps lives at `max 0 (lives - 1)`. -/
lemma loseLivesIter_lives (s : ScoreSystem) (n : ℕ) (h0 : 0 ≤ s.lives) :
    (loseLivesIter s n).lives = max 0 (s.lives - n) := by
  induction n with
  | zero =>
    simp only [loseLivesIter, Nat.cast_zero, sub_zero]
    omega
  | succ n ih =>
    simp only [loseLivesIter, ScoreSystem.loseLife, ih]
    push_cast
    omega

/-- Folding `max` from `⊥` computes a bound reached iff some list
element reaches it. -/
lemma foldl_max_reaches (f : Enemy → ℚ) (l : List Enemy) (c : ℚ) (acc : WithBot ℚ) :
    ((c : WithBot ℚ) ≤ l.foldl (fun m e => max m (f e : WithBot ℚ)) acc) ↔
      (c : WithBot ℚ) ≤ acc ∨ ∃ e ∈ l, c ≤ f e := by
  induction l generalizing acc with
  | nil => simp
  | cons e es ih =>
    rw [List.foldl_cons, ih, le_max_iff, WithBot.coe_le_coe]
    constructor
    · rintro ((h | h) | ⟨e2, he2, h2⟩)
      · exact Or.inl h
      · exact Or.inr ⟨e, List.mem_cons_self e es, h⟩
      · exact Or.inr ⟨e2, List.mem_cons_of_mem e he2, h2⟩
    · rintro (h | ⟨e2, he2, h2⟩)
      · exact Or.inl (Or.inl h)
      · rcases List.mem_cons.mp he2 with rfl | hmem
        · exact Or.inl (Or.inr h2)
        · exact Or.inr ⟨e2, hmem, h2⟩

/-- Folding `min` from `⊤` goes at or below a bound iff some list
element does. -/
lemma foldl_min_reaches (f : Enemy → ℚ) (l : List Enemy) (c : ℚ) (acc : WithTop ℚ) :
    (l.foldl (fun m e => min m (f e : WithTop ℚ)) acc ≤ (c : WithTop ℚ)) ↔
      acc ≤ (c : WithTop ℚ) ∨ ∃ e ∈ l, f e ≤ c := by
  induction l generalizing acc with
  | nil => simp
  | cons e es ih =>
    rw [List.foldl_cons, ih, min_le_iff, WithTop.coe_le_coe]
    constructor
    · rintro ((h | h) | ⟨e2, he2, h2⟩)
      · exact Or.inl h
      · exact Or.inr ⟨e, List.mem_cons_self e es, h⟩
      · exact Or.inr ⟨e2, List.mem_cons_of_mem e he2, h2⟩
    · rintro (h | ⟨e2, he2, h2⟩)
      · exact Or.inl (Or.inl h)
      · rcases List.mem_cons.mp he2 with rfl | hmem
        · exact Or.inl (Or.inr h2)
        · exact Or.inr ⟨e2, hmem, h2⟩

/-- The alive-or-dying filter is idempotent. -/
lemma filter_aliveOrDying_idem (enemies : List Enemy) :
    (enemies.filter aliveOrDying).filter aliveOrDying = enemies.filter aliveOrDying := by
  simp [List.filter_filter]

/-- The boundary check never touches the offsets' horizontal part nor
the tunables. -/
lemma applyBoundsCheck_keeps (fc : FormationController) (enemies : List Enemy) :
    (fc.applyBoundsCheck enemies).offsetX = fc.offsetX ∧
    (fc.applyBoundsCheck enemies).speed = fc.speed ∧
    (fc.applyBoundsCheck enemies).stepDownAmount = fc.stepDownAmount ∧
    (fc.applyBoundsCheck enemies).minX = fc.minX ∧
    (fc.applyBoundsCheck enemies).maxX = fc.maxX := by
  unfold FormationController.applyBoundsCheck
  split_ifs <;> exact ⟨rfl, rfl, rfl, rfl, rfl⟩

/-- The boundary check either leaves `offsetY` alone or adds exactly
one step-down. -/
lemma applyBoundsCheck_offsetY (fc : FormationController) (enemies : List Enemy) :
    (fc.applyBoundsCheck enemies).offsetY = fc.offsetY ∨
    (fc.applyBoundsCheck enemies).offsetY = fc.offsetY + fc.stepDownAmount := by
  unfold FormationController.applyBoundsCheck
  split_ifs <;> simp

/-- Unfolding the skip-and-overlap test. -/
lemma hitPred_spec (bb : Rect) (off : FormationOffset) (e : Enemy) :
    hitPred bb off e = true ↔
      (e.alive = true ∧ e.dying = false ∧ rectIntersect bb (e.getBounds off) = true) := by
  simp [hitPred, and_assoc, Bool.not_eq_true']

/-- Killing an alive enemy starts its death animation and leaves it
alive (removal happens later, from the death timer). -/
lemma kill_of_alive (e : Enemy) (h : e.alive = true) :
    e.kill = { e with dying := true, deathTimer := e.deathDuration } ∧
    e.kill.dying = true ∧ e.kill.alive = true := by
  refine ⟨?_, ?_, ?_⟩ <;> simp [Enemy.kill, h]

/-- A failed inner scan means no enemy passed the test. -/
lemma killFirstHit_none (bb : Rect) (off : FormationOffset) (es : List Enemy)
    (h : killFirstHit bb off es = none) :
    ∀ e ∈ es, hitPred bb off e = false := by
  induction es with
  | nil => intro e he; cases he
  | cons e es ih =>
    intro e2 he2
    simp only [killFirstHit] at h
    by_cases hp : hitPred bb off e = true
    · rw [if_pos hp] at h
      cases h
    · rw [if_neg hp] at h
      rcases List.mem_cons.mp he2 with rfl | hm
      · exact Bool.eq_false_iff.mpr hp
      · exact ih (Option.map_eq_none'.mp h) e2 hm

/-- A successful inner scan hits the first enemy passing the test:
that enemy was alive, not dying, and overlapping; the output list is
the input with exactly that enemy killed; and every earlier enemy
fails the test (dead or dying ones are skipped, earlier alive ones do
not overlap). -/
lemma killFirstHit_some (bb : Rect) (off : FormationOffset) (es : List Enemy)
    (i : ℕ) (es2 : List Enemy) (h : killFirstHit bb off es = some (i, es2)) :
    ∃ e, es[i]? = some e ∧ hitPred bb off e = true ∧ es2 = es.set i e.kill ∧
      ∀ j, j < i → ∀ e2, es[j]? = some e2 → hitPred bb off e2 = false := by
  induction es generalizing i es2 with
  | nil => cases h
  | cons e es ih =>
    simp only [killFirstHit] at h
    by_cases hp : hitPred bb off e = true
    · rw [if_pos hp, Option.some.injEq, Prod.mk.injEq] at h
      obtain ⟨hi, hes⟩ := h
      subst hi
      refine ⟨e, by simp, hp, ?_, ?_⟩
      · rw [List.set_cons_zero]
        exact hes.symm
      · intro j hj
        exact absurd hj (Nat.not_lt_zero j)
    · rw [if_neg hp] at h
      rcases Option.map_eq_some'.mp h with ⟨⟨i0, es0⟩, hrec, heq⟩
      rw [Prod.mk.injEq] at heq
      obtain ⟨hi, hes⟩ := heq
      subst hi
      obtain ⟨e0, hget, hhit, hset, hmin⟩ := ih i0 es0 hrec
      refine ⟨e0, ?_, hhit, ?_, ?_⟩
      · rw [List.getElem?_cons_succ]
        exact hget
      · rw [List.set_cons_succ, ← hset]
        exact hes.symm
      · intro j hj e2 hje2
        cases j with
        | zero =>
          rw [List.getElem?_cons_zero, Option.some.injEq] at hje2
          subst hje2
          exact Bool.eq_false_iff.mpr hp
        | succ k =>
          rw [List.getElem?_cons_succ] at hje2
          exact hmin k (Nat.lt_of_succ_lt_succ hj) e2 hje2

/-- The inner scan never touches an already-dying entry (it only
kills an enemy that passed the not-dying test). -/
lemma killFirstHit_keeps_dying (bb : Rect) (off : FormationOffset) (es : List Enemy)
    (i : ℕ) (es2 : List Enemy) (h : killFirstHit bb off es = some (i, es2)) :
    ∀ (j : ℕ) (e : Enemy), es[j]? = some e → e.dying = true → es2[j]? = some e := by
  obtain ⟨e0, hget, hhit, hset, -⟩ := killFirstHit_some bb off es i es2 h
  intro j e hj hd
  subst hset
  by_cases hij : i = j
  · subst hij
    rw [hget, Option.some.injEq] at hj
    subst hj
    exact absurd hd (by simp [((hitPred_spec bb off e0).mp hhit).2.1])
  · rw [List.getElem?_set_ne hij]
    exact hj

/-- Branch equation: an active bullet that hits. -/
lemma pass_cons_hit (off : FormationOffset) (b : Bullet) (bs : List Bullet)
    (enemies : List Enemy) (idx i : ℕ) (enemies2 : List Enemy)
    (hb : b.active = true) (hk : killFirstHit b.getBounds off enemies = some (i, enemies2)) :
    bulletEnemyPass off (b :: bs) enemies idx =
      (b.destroy :: (bulletEnemyPass off bs enemies2 (idx + 1)).1,
       (bulletEnemyPass off bs enemies2 (idx + 1)).2.1,
       ⟨idx, i⟩ :: (bulletEnemyPass off bs enemies2 (idx + 1)).2.2) := by
  simp [bulletEnemyPass, hb, hk]

/-- Branch equation: an active bullet that misses every enemy. -/
lemma pass_cons_miss (off : FormationOffset) (b : Bullet) (bs : List Bullet)
    (enemies : List Enemy) (idx : ℕ)
    (hb : b.active = true) (hk : killFirstHit b.getBounds off enemies = none) :
    bulletEnemyPass off (b :: bs) enemies idx =
      (b :: (bulletEnemyPass off bs enemies (idx + 1)).1,
       (bulletEnemyPass off bs enemies (idx + 1)).2.1,
       (bulletEnemyPass off bs enemies (idx + 1)).2.2) := by
  simp [bulletEnemyPass, hb, hk]

/-- Branch equation: an inactive bullet is skipped. -/
lemma pass_cons_inactive (off : FormationOffset) (b : Bullet) (bs : List Bullet)
    (enemies : List Enemy) (idx : ℕ) (hb : b.active = false) :
    bulletEnemyPass off (b :: bs) enemies idx =
      (b :: (bulletEnemyPass off bs enemies (idx + 1)).1,
       (bulletEnemyPass off bs enemies (idx + 1)).2.1,
       (bulletEnemyPass off bs enemies (idx + 1)).2.2) := by
  simp [bulletEnemyPass, hb]

/-- The whole pass never touches an already-dying enemy entry. -/
lemma pass_keeps_dying (off : FormationOffset) (bs : List Bullet) :
    ∀ (enemies : List Enemy) (idx j : ℕ) (e : Enemy), enemies[j]? = some e →
      e.dying = true → (bulletEnemyPass off bs enemies idx).2.1[j]? = some e := by
  induction bs with
  | nil =>
    intro enemies idx j e hj hd
    simpa [bulletEnemyPass] using hj
  | cons b bs ih =>
    intro enemies idx j e hj hd
    by_cases hb : b.active = true
    · cases hk : killFirstHit b.getBounds off enemies with
      | some v =>
        obtain ⟨i, enemies2⟩ := v
        rw [pass_cons_hit off b bs enemies idx i enemies2 hb hk]
        exact ih enemies2 (idx + 1) j e
          (killFirstHit_keeps_dying b.getBounds off enemies i enemies2 hk j e hj hd) hd
      | none =>
        rw [pass_cons_miss off b bs enemies idx hb hk]
        exact ih enemies (idx + 1) j e hj hd
    · rw [pass_cons_inactive off b bs enemies idx (Bool.eq_false_iff.mpr hb)]
      exact ih enemies (idx + 1) j e hj hd

/-- Every event of the pass indexes a bullet at or after the running
start index. -/
lemma pass_events_lb (off : FormationOffset) (bs : List Bullet) :
    ∀ (enemies : List Enemy) (idx : ℕ), ∀ ev ∈ (bulletEnemyPass off bs enemies idx).2.2,
      idx ≤ ev.bulletIdx := by
  induction bs with
  | nil =>
    intro enemies idx ev hev
    simp [bulletEnemyPass] at hev
  | cons b bs ih =>
    intro enemies idx ev hev
    by_cases hb : b.active = true
    · cases hk : killFirstHit b.getBounds off enemies with
      | some v =>
        obtain ⟨i, enemies2⟩ := v
        rw [pass_cons_hit off b bs enemies idx i enemies2 hb hk] at hev
        dsimp only at hev
        rcases List.mem_cons.mp hev with rfl | hm
        · exact Nat.le_refl idx
        · exact Nat.le_of_succ_le (ih enemies2 (idx + 1) ev hm)
      | none =>
        rw [pass_cons_miss off b bs enemies idx hb hk] at hev
        dsimp only at hev
        exact Nat.le_of_succ_le (ih enemies (idx + 1) ev hev)
    · rw [pass_cons_inactive off b bs enemies idx (Bool.eq_false_iff.mpr hb)] at hev
      dsimp only at hev
      exact Nat.le_of_succ_le (ih enemies (idx + 1) ev hev)

/-- The events come out with strictly increasing bullet indices: no
bullet appears in two events. -/
lemma pass_events_increasing (off : FormationOffset) (bs : List Bullet) :
    ∀ (enemies : List Enemy) (idx : ℕ),
      List.Pairwise (fun a b : BEEvent => a.bulletIdx < b.bulletIdx)
        (bulletEnemyPass off bs enemies idx).2.2 := by
  induction bs with
  | nil =>
    intro enemies idx
    simp [bulletEnemyPass]
  | cons b bs ih =>
    intro enemies idx
    by_cases hb : b.active = true
    · cases hk : killFirstHit b.getBounds off enemies with
      | some v =>
        obtain ⟨i, enemies2⟩ := v
        rw [pass_cons_hit off b bs enemies idx i enemies2 hb hk]
        dsimp only
        exact List.Pairwise.cons
          (fun ev hev => Nat.lt_of_succ_le (pass_events_lb off bs enemies2 (idx + 1) ev hev))
          (ih enemies2 (idx + 1))
      | none =>
        rw [pass_cons_miss off b bs enemies idx hb hk]
        exact ih enemies (idx + 1)
    · rw [pass_cons_inactive off b bs enemies idx (Bool.eq_false_iff.mpr hb)]
      exact ih enemies (idx + 1)

/-- A list of events with strictly increasing bullet indices holds at
most one event for any given bullet. -/
lemma countP_le_one_of_increasing (l : List BEEvent) (j : ℕ)
    (h : List.Pairwise (fun a b : BEEvent => a.bulletIdx < b.bulletIdx) l) :
    l.countP (fun ev => ev.bulletIdx == j) ≤ 1 := by
  induction l with
  | nil => simp
  | cons a l ih =>
    rw [List.countP_cons]
    by_cases haj : a.bulletIdx = j
    · have hz : l.countP (fun ev => ev.bulletIdx == j) = 0 := by
        refine List.countP_eq_zero.mpr ?_
        intro ev hev
        have hlt := List.rel_of_pairwise_cons h hev
        simp only [beq_iff_eq]
        omega
      simp [hz, haj]
    · simp only [beq_iff_eq, haj, if_false]
      exact ih (List.Pairwise.of_cons h)

/-- Each event points at an output bullet that has been deactivated. -/
lemma pass_event_bullet (off : FormationOffset) (bs : List Bullet) :
    ∀ (enemies : List Enemy) (idx : ℕ), ∀ ev ∈ (bulletEnemyPass off bs enemies idx).2.2,
      ∃ (k : ℕ) (b2 : Bullet), ev.bulletIdx = idx + k ∧
        (bulletEnemyPass off bs enemies idx).1[k]? = some b2 ∧ b2.active = false := by
  induction bs with
  | nil =>
    intro enemies idx ev hev
    simp [bulletEnemyPass] at hev
  | cons b bs ih =>
    intro enemies idx ev hev
    by_cases hb : b.active = true
    · cases hk : killFirstHit b.getBounds off enemies with
      | some v =>
        obtain ⟨i, enemies2⟩ := v
        rw [pass_cons_hit off b bs enemies idx i enemies2 hb hk] at hev ⊢
        dsimp only at hev ⊢
        rcases List.mem_cons.mp hev with rfl | hm
        · exact ⟨0, b.destroy, by simp, by simp, rfl⟩
        · obtain ⟨k, b2, h1, h2, h3⟩ := ih enemies2 (idx + 1) ev hm
          refine ⟨k + 1, b2, by omega, ?_, h3⟩
          rw [List.getElem?_cons_succ]
          exact h2
      | none =>
        rw [pass_cons_miss off b bs enemies idx hb hk] at hev ⊢
        dsimp only at hev ⊢
        obtain ⟨k, b2, h1, h2, h3⟩ := ih enemies (idx + 1) ev hev
        refine ⟨k + 1, b2, by omega, ?_, h3⟩
        rw [List.getElem?_cons_succ]
        exact h2
    · rw [pass_cons_inactive off b bs enemies idx (Bool.eq_false_iff.mpr hb)] at hev ⊢
      dsimp only at hev ⊢
      obtain ⟨k, b2, h1, h2, h3⟩ := ih enemies (idx + 1) ev hev
      refine ⟨k + 1, b2, by omega, ?_, h3⟩
      rw [List.getElem?_cons_succ]
      exact h2

/-- Each event points at an output enemy that is dying (and still
alive: removal only happens later through the death timer). -/
lemma pass_event_enemy_out (off : FormationOffset) (bs : List Bullet) :
    ∀ (enemies : List Enemy) (idx : ℕ), ∀ ev ∈ (bulletEnemyPass off bs enemies idx).2.2,
      ∃ e2, (bulletEnemyPass off bs enemies idx).2.1[ev.enemyIdx]? = some e2 ∧
        e2.dying = true ∧ e2.alive = true := by
  induction bs with
  | nil =>
    intro enemies idx ev hev
    simp [bulletEnemyPass] at hev
  | cons b bs ih =>
    intro enemies idx ev hev
    by_cases hb : b.active = true
    · cases hk : killFirstHit b.getBounds off enemies with
      | some v =>
        obtain ⟨i, enemies2⟩ := v
        rw [pass_cons_hit off b bs enemies idx i enemies2 hb hk] at hev ⊢
        dsimp only at hev ⊢
        rcases List.mem_cons.mp hev with rfl | hm
        · obtain ⟨e0, hget, hhit, hset, -⟩ :=
            killFirstHit_some b.getBounds off enemies i enemies2 hk
          obtain ⟨halive, hdying2, hrect⟩ := (hitPred_spec b.getBounds off e0).mp hhit
          obtain ⟨-, hkd, hka⟩ := kill_of_alive e0 halive
          have hlen : i < enemies.length := by
            rcases List.getElem?_eq_some.mp hget with ⟨hlt, -⟩
            exact hlt
          have hmem2 : enemies2[i]? = some e0.kill := by
            rw [hset]
            exact List.getElem?_set_self (by simpa using hlen)
          exact ⟨e0.kill, pass_keeps_dying off bs enemies2 (idx + 1) i e0.kill hmem2 hkd,
            hkd, hka⟩
        · exact ih enemies2 (idx + 1) ev hm
      | none =>
        rw [pass_cons_miss off b bs enemies idx hb hk] at hev ⊢
        dsimp only at hev ⊢
        exact ih enemies (idx + 1) ev hev
    · rw [pass_cons_inactive off b bs enemies idx (Bool.eq_false_iff.mpr hb)] at hev ⊢
      dsimp only at hev ⊢
      exact ih enemies (idx + 1) ev hev

/-- Each event points back at an input enemy that was alive and not
yet dying when the pass started: dying or dead enemies are never
matched. -/
lemma pass_event_enemy_in (off : FormationOffset) (bs : List Bullet) :
    ∀ (enemies : List Enemy) (idx : ℕ), ∀ ev ∈ (bulletEnemyPass off bs enemies idx).2.2,
      ∃ e, enemies[ev.enemyIdx]? = some e ∧ e.alive = true ∧ e.dying = false := by
  induction bs with
  | nil =>
    intro enemies idx ev hev
    simp [bulletEnemyPass] at hev
  | cons b bs ih =>
    intro enemies idx ev hev
    by_cases hb : b.active = true
    · cases hk : killFirstHit b.getBounds off enemies with
      | some v =>
        obtain ⟨i, enemies2⟩ := v
        rw [pass_cons_hit off b bs enemies idx i enemies2 hb hk] at hev
        dsimp only at hev
        obtain ⟨e0, hget, hhit, hset, -⟩ :=
          killFirstHit_some b.getBounds off enemies i enemies2 hk
        obtain ⟨halive0, hdying0, -⟩ := (hitPred_spec b.getBounds off e0).mp hhit
        rcases List.mem_cons.mp hev with rfl | hm
        · exact ⟨e0, hget, halive0, hdying0⟩
        · obtain ⟨e, hget2, halive, hdying⟩ := ih enemies2 (idx + 1) ev hm
          by_cases hidx : i = ev.enemyIdx
          · have hlen : i < enemies.length := by
              rcases List.getElem?_eq_some.mp hget with ⟨hlt, -⟩
              exact hlt
            rw [hset, ← hidx, List.getElem?_set_self (by simpa using hlen),
              Option.some.injEq] at hget2
            subst hget2
            have hkd := (kill_of_alive e0 halive0).2.1
            rw [hkd] at hdying
            cases hdying
          · rw [hset, List.getElem?_set_ne hidx] at hget2
            exact ⟨e, hget2, halive, hdying⟩
      | none =>
        rw [pass_cons_miss off b bs enemies idx hb hk] at hev
        dsimp only at hev
        exact ih enemies (idx + 1) ev hev
    · rw [pass_cons_inactive off b bs enemies idx (Bool.eq_false_iff.mpr hb)] at hev
      dsimp only at hev
      exact ih enemies (idx + 1) ev hev

/-- Bullets that enter the pass inactive come out exactly as they
went in (they are skipped, never matched again). -/
lemma pass_inactive_bullets (off : FormationOffset) (bs : List Bullet) :
    ∀ (enemies : List Enemy) (idx k : ℕ) (b : Bullet), bs[k]? = some b →
      b.active = false → (bulletEnemyPass off bs enemies idx).1[k]? = some b := by
  induction bs with
  | nil =>
    intro enemies idx k b hk
    simp at hk
  | cons b0 bs ih =>
    intro enemies idx k b hk hbf
    by_cases hb : b0.active = true
    · cases hkill : killFirstHit b0.getBounds off enemies with
      | some v =>
        obtain ⟨i, enemies2⟩ := v
        rw [pass_cons_hit off b0 bs enemies idx i enemies2 hb hkill]
        dsimp only
        cases k with
        | zero =>
          rw [List.getElem?_cons_zero, Option.some.injEq] at hk
          subst hk
          rw [hbf] at hb
          cases hb
        | succ k =>
          rw [List.getElem?_cons_succ] at hk ⊢
          exact ih enemies2 (idx + 1) k b hk hbf
      | none =>
        rw [pass_cons_miss off b0 bs enemies idx hb hkill]
        dsimp only
        cases k with
        | zero =>
          rw [List.getElem?_cons_zero, Option.some.injEq] at hk
          subst hk
          rw [hbf] at hb
          cases hb
        | succ k =>
          rw [List.getElem?_cons_succ] at hk ⊢
          exact ih enemies (idx + 1) k b hk hbf
    · rw [pass_cons_inactive off b0 bs enemies idx (Bool.eq_false_iff.mpr hb)]
      dsimp only
      cases k with
      | zero =>
        rw [List.getElem?_cons_zero, Option.some.injEq] at hk
        subst hk
        rw [List.getElem?_cons_zero]
      | succ k =>
        rw [List.getElem?_cons_succ] at hk ⊢
        exact ih enemies (idx + 1) k b hk hbf

/-- The pass emits exactly one event per bullet it deactivates. -/
lemma pass_events_count (off : FormationOffset) (bs : List Bullet) :
    ∀ (enemies : List Enemy) (idx : ℕ),
      (bulletEnemyPass off bs enemies idx).2.2.length =
        (bs.zip (bulletEnemyPass off bs enemies idx).1).countP
          (fun p => p.1.active && !p.2.active) := by
  induction bs with
  | nil =>
    intro enemies idx
    simp [bulletEnemyPass]
  | cons b bs ih =>
    intro enemies idx
    by_cases hb : b.active = true
    · cases hk : killFirstHit b.getBounds off enemies with
      | some v =>
        obtain ⟨i, enemies2⟩ := v
        rw [pass_cons_hit off b bs enemies idx i enemies2 hb hk]
        dsimp only
        rw [List.zip_cons_cons, List.countP_cons, List.length_cons, ih enemies2 (idx + 1)]
        simp [Bullet.destroy, hb]
      | none =>
        rw [pass_cons_miss off b bs enemies idx hb hk]
        dsimp only
        rw [List.zip_cons_cons, List.countP_cons, ih enemies (idx + 1)]
        simp [hb]
    · rw [pass_cons_inactive off b bs enemies idx (Bool.eq_false_iff.mpr hb)]
      dsimp only
      rw [List.zip_cons_cons, List.countP_cons, ih enemies (idx + 1)]
      simp [Bool.eq_false_iff.mpr hb]

/-- Folding `addKill` over the events raises the score by exactly
`scorePerKill` per event. -/
lemma applyKillEvents_score (cfg : Config) (evs : List BEEvent) :
    ∀ s : ScoreSystem,
      (applyKillEvents cfg s evs).score = s.score + evs.length * cfg.scorePerKill := by
  induction evs with
  | nil =>
    intro s
    simp [applyKillEvents]
  | cons ev evs ih =>
    intro s
    simp only [applyKillEvents, List.foldl_cons] at ih ⊢
    rw [ih]
    show s.score + cfg.scorePerKill + evs.length * cfg.scorePerKill = _
    rw [List.length_cons]
    push_cast
    ring

/-- With the set empty, the boundary check returns unchanged. -/
lemma applyBoundsCheck_empty (fc : FormationController) (enemies : List Enemy)
    (h : enemies.filter aliveOrDying = []) :
    fc.applyBoundsCheck enemies = fc := by
  simp [FormationController.applyBoundsCheck, h]

/-- Moving right, once some participating enemy's right edge reaches
`maxX`, the check reverses to the left and steps down once. -/
lemma applyBoundsCheck_flip_right (fc : FormationController) (enemies : List Enemy)
    (hdir : 0 < fc.direction) (e : Enemy) (he : e ∈ enemies.filter aliveOrDying)
    (hre : fc.maxX ≤ enemyRightEdge fc.offsetX e) :
    fc.applyBoundsCheck enemies =
      { fc with direction := -1, offsetY := fc.offsetY + fc.stepDownAmount } := by
  unfold FormationController.applyBoundsCheck
  split_ifs with hemp h1 h2
  · exact absurd (List.isEmpty_eq_true.mp hemp ▸ he) (List.not_mem_nil e)
  · rfl
  · exact absurd ⟨(foldl_max_reaches _ _ _ _).mpr (Or.inr ⟨e, he, hre⟩), hdir⟩ h1
  · exact absurd ⟨(foldl_max_reaches _ _ _ _).mpr (Or.inr ⟨e, he, hre⟩), hdir⟩ h1

/-- Moving right with every participating right edge strictly inside
`maxX`, the check changes nothing. -/
lemma applyBoundsCheck_no_flip_right (fc : FormationController) (enemies : List Enemy)
    (hdir : 0 < fc.direction)
    (hall : ∀ e ∈ enemies.filter aliveOrDying, enemyRightEdge fc.offsetX e < fc.maxX) :
    fc.applyBoundsCheck enemies = fc := by
  unfold FormationController.applyBoundsCheck
  split_ifs with hemp h1 h2
  · rfl
  · exfalso
    rcases (foldl_max_reaches _ _ _ _).mp h1.1 with h | ⟨e, he, hre⟩
    · simp at h
    · exact absurd hre (not_le.mpr (hall e he))
  · exact absurd h2.2 (lt_asymm hdir)
  · rfl

/-- Moving left, once some participating enemy's left edge reaches
`minX`, the check reverses to the right and steps down once. -/
lemma applyBoundsCheck_flip_left (fc : FormationController) (enemies : List Enemy)
    (hdir : fc.direction < 0) (e : Enemy) (he : e ∈ enemies.filter aliveOrDying)
    (hle : enemyLeftEdge fc.offsetX e ≤ fc.minX) :
    fc.applyBoundsCheck enemies =
      { fc with direction := 1, offsetY := fc.offsetY + fc.stepDownAmount } := by
  unfold FormationController.applyBoundsCheck
  split_ifs with hemp h1 h2
  · exact absurd (List.isEmpty_eq_true.mp hemp ▸ he) (List.not_mem_nil e)
  · exact absurd hdir (lt_asymm h1.2)
  · rfl
  · exact absurd ⟨(foldl_min_reaches _ _ _ _).mpr (Or.inr ⟨e, he, hle⟩), hdir⟩ h2

/-- Moving left with every participating left edge strictly inside
`minX`, the check changes nothing. -/
lemma applyBoundsCheck_no_flip_left (fc : FormationController) (enemies : List Enemy)
    (hdir : fc.direction < 0)
    (hall : ∀ e ∈ enemies.filter aliveOrDying, fc.minX < enemyLeftEdge fc.offsetX e) :
    fc.applyBoundsCheck enemies = fc := by
  unfold FormationController.applyBoundsCheck
  split_ifs with hemp h1 h2
  · rfl
  · exact absurd hdir (lt_asymm h1.2)
  · exfalso
    rcases (foldl_min_reaches _ _ _ _).mp h2.1 with h | ⟨e, he, hle⟩
    · simp at h
    · exact absurd hle (not_le.mpr (hall e he))
  · rfl

/-- The comparator `scoreDescLe` is transitive. -/
lemma scoreDescLe_trans (a b c : ScoreEntry)
    (hab : scoreDescLe a b = true) (hbc : scoreDescLe b c = true) :
    scoreDescLe a c = true := by
  simp only [scoreDescLe, decide_eq_true_eq] at *
  exact le_trans hbc hab

/-- The comparator `scoreDescLe` is total. -/
lemma scoreDescLe_total (a b : ScoreEntry) :
    (scoreDescLe a b || scoreDescLe b a) = true := by
  simp only [scoreDescLe, Bool.or_eq_true, decide_eq_true_eq]
  exact le_total b.score a.score

/-- C2: `rectIntersect` implements exactly the strict-inequality AABB
rule, is symmetric, rejects edge-touching boxes with zero overlap
area, and accepts a fully contained box. -/
theorem rectIntersect_characterisation (a b : Rect) :
    (rectIntersect a b = true ↔
      (a.x < b.x + b.width ∧ a.x + a.width > b.x ∧
       a.y < b.y + b.height ∧ a.y + a.height > b.y)) ∧
    rectIntersect a b = rectIntersect b a ∧
    rectIntersect ⟨0, 0, 10, 10⟩ ⟨10, 0, 10, 10⟩ = false ∧
    rectIntersect ⟨0, 0, 20, 20⟩ ⟨5, 5, 5, 5⟩ = true := by
  refine ⟨?_, ?_, ?_, ?_⟩
  · simp [rectIntersect, and_assoc]
  · rw [Bool.eq_iff_iff]
    simp only [rectIntersect, Bool.and_eq_true, decide_eq_true_eq, gt_iff_lt]
    tauto
  · simp [rectIntersect]
  · simp [rectIntersect]
    norm_num

/-- C4: `consumePower` succeeds and zeroes the power exactly when the
power sits at its maximum; otherwise it fails and changes nothing;
right after a successful consumption a second call fails and leaves
the power at 0. -/
theorem consumePower_all_or_nothing (s : ScoreSystem)
    (hinv : s.turiaPower ≤ s.turiaPowerMax) (hpos : 0 < s.turiaPowerMax) :
    ((s.consumePower.1 = true ∧ s.consumePower.2.turiaPower = 0) ↔
      s.turiaPower = s.turiaPowerMax) ∧
    (s.turiaPower ≠ s.turiaPowerMax →
      s.consumePower.1 = false ∧ s.consumePower.2 = s) ∧
    (s.turiaPower = s.turiaPowerMax →
      s.consumePower.2.consumePower.1 = false ∧
      s.consumePower.2.consumePower.2.turiaPower = 0) := by
  by_cases hready : s.turiaPower = s.turiaPowerMax
  · have h1 : s.isPowerReady = true := by
      simp [ScoreSystem.isPowerReady, hready]
    have hnot : ¬({ s with turiaPower := 0 } : ScoreSystem).isPowerReady = true := by
      simp only [ScoreSystem.isPowerReady, decide_eq_true_eq]
      simp only [ge_iff_le, not_le]
      exact hpos
    refine ⟨?_, fun h => absurd hready h, fun _ => ?_⟩
    · simp [ScoreSystem.consumePower, h1, hready]
    · simp [ScoreSystem.consumePower, h1, hnot]
  · have h1 : ¬s.isPowerReady = true := by
      simp only [ScoreSystem.isPowerReady, decide_eq_true_eq]
      simp only [ge_iff_le, not_le]
      exact lt_of_le_of_ne hinv hready
    refine ⟨?_, fun _ => ?_, fun h => absurd h hready⟩
    · simp [ScoreSystem.consumePower, h1, hready]
    · simp [ScoreSystem.consumePower, h1]

/-- C4 witness: at full power (100 of 100) consumption succeeds, and
an immediate second call fails. -/
theorem consumePower_all_or_nothing_instance :
    (ScoreSystem.consumePower ⟨0, 3, 100, 100, ""⟩).1 = true ∧
    (ScoreSystem.consumePower ⟨0, 3, 100, 100, ""⟩).2.consumePower.1 = false ∧
    (ScoreSystem.consumePower ⟨0, 3, 100, 100, ""⟩).2.consumePower.2.turiaPower = 0 := by
  have h := consumePower_all_or_nothing ⟨0, 3, 100, 100, ""⟩ (by norm_num) (by norm_num)
  exact ⟨(h.1.mpr rfl).1, (h.2.2 rfl).1, (h.2.2 rfl).2⟩

/-- C7: from any reset state, `loseLife` returns and stores
`max 0 (lives - 1)`, iterating it never drives lives below 0, and
`isGameOver` holds exactly when lives is 0. -/
theorem loseLife_clamped_iter (cfg : Config) (s0 : ScoreSystem) (n : ℕ)
    (hmax : 0 ≤ cfg.livesMax) :
    (∀ s : ScoreSystem,
      s.loseLife.1 = max 0 (s.lives - 1) ∧ s.loseLife.2.lives = max 0 (s.lives - 1)) ∧
    (loseLivesIter (s0.reset cfg) n).lives = max 0 (cfg.livesMax - n) ∧
    0 ≤ (loseLivesIter (s0.reset cfg) n).lives ∧
    ((loseLivesIter (s0.reset cfg) n).isGameOver = true ↔
      (loseLivesIter (s0.reset cfg) n).lives = 0) := by
  have hl : (loseLivesIter (s0.reset cfg) n).lives = max 0 (cfg.livesMax - n) := by
    rw [loseLivesIter_lives]
    · simp [ScoreSystem.reset]
    · simpa [ScoreSystem.reset] using hmax
  refine ⟨fun s => ⟨rfl, rfl⟩, hl, ?_, ?_⟩
  · rw [hl]; exact le_max_left _ _
  · simp only [ScoreSystem.isGameOver, decide_eq_true_eq, hl]
    omega

/-- C7 witness: from a reset under the reference configuration
(3 lives), eight consecutive life losses (livesMax + 5) leave exactly
0 lives, and the game is then over. -/
theorem loseLife_clamped_iter_instance :
    (loseLivesIter (ScoreSystem.reset CONFIG ⟨0, 3, 0, 100, ""⟩) 8).lives = 0 ∧
    (loseLivesIter (ScoreSystem.reset CONFIG ⟨0, 3, 0, 100, ""⟩) 8).isGameOver = true := by
  have h := loseLife_clamped_iter CONFIG ⟨0, 3, 0, 100, ""⟩ 8 (by norm_num [CONFIG])
  have hz : (loseLivesIter (ScoreSystem.reset CONFIG ⟨0, 3, 0, 100, ""⟩) 8).lives = 0 := by
    rw [h.2.1]
    norm_num [CONFIG]
  exact ⟨hz, h.2.2.2.mpr hz⟩

/-- C8: with the reference configuration, a boss wave is exactly a
positive wave number divisible by 3, and wave 0 never spawns a boss. -/
theorem shouldSpawnBoss_iff (w : ℤ) :
    (shouldSpawnBoss CONFIG w = true ↔ (0 < w ∧ w % 3 = 0)) ∧
    shouldSpawnBoss CONFIG 0 = false := by
  constructor
  · simp [shouldSpawnBoss, CONFIG]
  · simp [shouldSpawnBoss]

/-- C6: with the cooldown elapsed, `shoot` produces a bullet at the
ship's nose with strictly negative vertical velocity and rearms the
cooldown; with a running cooldown it produces nothing and leaves the
player untouched. -/
theorem player_shoot_cooldown_gate (cfg : Config) (p : Player) :
    (p.fireCooldown = 0 → 0 < cfg.bulletSpeed →
      (∃ b, (p.shoot cfg).1 = some b ∧
        b.x = p.x ∧ b.y = p.y - p.height / 2 ∧ b.velocityY < 0 ∧ b.active = true) ∧
      (p.shoot cfg).2.fireCooldown = p.fireCooldownMax) ∧
    (0 < p.fireCooldown → (p.shoot cfg).1 = none ∧ (p.shoot cfg).2 = p) := by
  constructor
  · intro h0 hspeed
    have hc : p.fireCooldown ≤ 0 := le_of_eq h0
    refine ⟨⟨Bullet.create cfg p.x (p.y - p.height / 2) (-cfg.bulletSpeed), ?_, rfl, rfl, ?_, rfl⟩, ?_⟩
    · simp [Player.shoot, hc]
    · simpa [Bullet.create] using neg_neg_of_pos hspeed
    · simp [Player.shoot, hc]
  · intro hpos
    have hc : ¬p.fireCooldown ≤ 0 := not_le.mpr hpos
    constructor <;> simp [Player.shoot, hc]

/-- C6 witness: a ready player (cooldown 0) at (400, 500) under the
reference configuration shoots a bullet at (400, 476) heading upward
and rearms to 200 ms; a player with cooldown 50 does not shoot. -/
theorem player_shoot_cooldown_gate_instance :
    (∃ b, (Player.shoot CONFIG ⟨400, 500, 72, 48, 300, 0, 200⟩).1 = some b ∧
      b.x = 400 ∧ b.y = 500 - 48 / 2 ∧ b.velocityY < 0 ∧ b.active = true) ∧
    (Player.shoot CONFIG ⟨400, 500, 72, 48, 300, 0, 200⟩).2.fireCooldown = 200 ∧
    (Player.shoot CONFIG ⟨400, 500, 72, 48, 300, 50, 200⟩).1 = none := by
  have h1 := player_shoot_cooldown_gate CONFIG ⟨400, 500, 72, 48, 300, 0, 200⟩
  have h2 := player_shoot_cooldown_gate CONFIG ⟨400, 500, 72, 48, 300, 50, 200⟩
  have ha := h1.1 rfl (by norm_num [CONFIG])
  exact ⟨ha.1, ha.2, (h2.2 (by norm_num)).1⟩

/-- C5: `saveScore` refuses (returning `false` and leaving the stored
list alone) exactly on an empty name or non-positive score; otherwise
it returns `true`, persists the stable descending re-sort of the list
with the new entry appended truncated to 10 entries, so the stored
list grows to at most 10 entries and is sorted descending by score. -/
theorem saveScore_guard_sort_truncate (s : ScoreSystem) (stored : List ScoreEntry) (now : ℤ) :
    (s.playerName = "" ∨ s.score ≤ 0 → s.saveScore stored now = (false, stored)) ∧
    (s.playerName ≠ "" → 0 < s.score →
      (s.saveScore stored now).1 = true ∧
      (s.saveScore stored now).2 =
        ((stored ++ [({ name := s.playerName, score := s.score, date := now } : ScoreEntry)]).mergeSort
          scoreDescLe).take 10 ∧
      (s.saveScore stored now).2.length = min (stored.length + 1) 10 ∧
      List.Pairwise (fun a b : ScoreEntry => b.score ≤ a.score) (s.saveScore stored now).2) := by
  constructor
  · intro h
    simp [ScoreSystem.saveScore, h]
  · intro hname hscore
    have hguard : ¬(s.playerName = "" ∨ s.score ≤ 0) := by
      push_neg
      exact ⟨hname, hscore⟩
    have hsorted :=
      List.sorted_mergeSort scoreDescLe_trans scoreDescLe_total
        (stored ++ [{ name := s.playerName, score := s.score, date := now }])
    refine ⟨?_, ?_, ?_, ?_⟩
    · simp [ScoreSystem.saveScore, hguard]
    · simp [ScoreSystem.saveScore, hguard]
    · simp only [ScoreSystem.saveScore, hguard, if_neg, ite_false]
      rw [List.length_take, List.length_mergeSort, List.length_append]
      simp [Nat.min_comm]
    · simp only [ScoreSystem.saveScore, hguard, ite_false]
      have htake := List.Pairwise.sublist (List.take_sublist 10 _) hsorted
      refine htake.imp ?_
      intro a b hab
      simpa [scoreDescLe] using hab

/-- C5 witness: an 11th score saved over a full 10-entry board yields
`true` and a 10-entry board again, sorted descending. -/
theorem saveScore_guard_sort_truncate_instance :
    (ScoreSystem.saveScore ⟨5, 3, 0, 100, "AAA"⟩
      [⟨"P1", 110, 0⟩, ⟨"P2", 100, 0⟩, ⟨"P3", 90, 0⟩, ⟨"P4", 80, 0⟩, ⟨"P5", 70, 0⟩,
       ⟨"P6", 60, 0⟩, ⟨"P7", 50, 0⟩, ⟨"P8", 40, 0⟩, ⟨"P9", 30, 0⟩, ⟨"P10", 20, 0⟩] 0).1 = true ∧
    (ScoreSystem.saveScore ⟨5, 3, 0, 100, "AAA"⟩
      [⟨"P1", 110, 0⟩, ⟨"P2", 100, 0⟩, ⟨"P3", 90, 0⟩, ⟨"P4", 80, 0⟩, ⟨"P5", 70, 0⟩,
       ⟨"P6", 60, 0⟩, ⟨"P7", 50, 0⟩, ⟨"P8", 40, 0⟩, ⟨"P9", 30, 0⟩, ⟨"P10", 20, 0⟩] 0).2.length = 10 ∧
    List.Pairwise (fun a b : ScoreEntry => b.score ≤ a.score)
      (ScoreSystem.saveScore ⟨5, 3, 0, 100, "AAA"⟩
        [⟨"P1", 110, 0⟩, ⟨"P2", 100, 0⟩, ⟨"P3", 90, 0⟩, ⟨"P4", 80, 0⟩, ⟨"P5", 70, 0⟩,
         ⟨"P6", 60, 0⟩, ⟨"P7", 50, 0⟩, ⟨"P8", 40, 0⟩, ⟨"P9", 30, 0⟩, ⟨"P10", 20, 0⟩] 0).2 := by
  have h := saveScore_guard_sort_truncate ⟨5, 3, 0, 100, "AAA"⟩
    [⟨"P1", 110, 0⟩, ⟨"P2", 100, 0⟩, ⟨"P3", 90, 0⟩, ⟨"P4", 80, 0⟩, ⟨"P5", 70, 0⟩,
     ⟨"P6", 60, 0⟩, ⟨"P7", 50, 0⟩, ⟨"P8", 40, 0⟩, ⟨"P9", 30, 0⟩, ⟨"P10", 20, 0⟩] 0
  have hb := h.2 (by decide) (by norm_num)
  refine ⟨hb.1, ?_, hb.2.2.2⟩
  rw [hb.2.2.1]
  simp

/-- C9: when the guard passes but the board is full of strictly
higher scores, `saveScore` still returns `true` while the persisted
list comes back unchanged — success does not mean the entry made the
board. -/
theorem saveScore_true_without_insertion (s : ScoreSystem) (stored : List ScoreEntry) (now : ℤ)
    (hname : s.playerName ≠ "") (hscore : 0 < s.score)
    (hlen : stored.length = 10)
    (hsorted : List.Pairwise (fun a b => scoreDescLe a b = true) stored)
    (hhigh : ∀ entry ∈ stored, s.score < entry.score) :
    s.saveScore stored now = (true, stored) := by
  have hguard : ¬(s.playerName = "" ∨ s.score ≤ 0) := by
    push_neg
    exact ⟨hname, hscore⟩
  have happ : List.Pairwise (fun a b => scoreDescLe a b = true)
      (stored ++ [{ name := s.playerName, score := s.score, date := now }]) := by
    rw [List.pairwise_append]
    refine ⟨hsorted, List.pairwise_singleton _ _, ?_⟩
    intro a ha b hb
    simp only [List.mem_singleton] at hb
    subst hb
    simp only [scoreDescLe, decide_eq_true_eq]
    exact le_of_lt (hhigh a ha)
  simp only [ScoreSystem.saveScore, hguard, ite_false]
  rw [List.mergeSort_of_sorted happ]
  rw [← hlen, List.take_left]

/-- C9 witness: score 5 against a full board of scores 20 and above is
accepted (`true`) yet the stored board is unchanged. -/
theorem saveScore_true_without_insertion_instance :
    ScoreSystem.saveScore ⟨5, 3, 0, 100, "AAA"⟩
      [⟨"Q1", 110, 0⟩, ⟨"Q2", 100, 0⟩, ⟨"Q3", 90, 0⟩, ⟨"Q4", 80, 0⟩, ⟨"Q5", 70, 0⟩,
       ⟨"Q6", 60, 0⟩, ⟨"Q7", 50, 0⟩, ⟨"Q8", 40, 0⟩, ⟨"Q9", 30, 0⟩, ⟨"Q10", 20, 0⟩] 7 =
    (true,
      [⟨"Q1", 110, 0⟩, ⟨"Q2", 100, 0⟩, ⟨"Q3", 90, 0⟩, ⟨"Q4", 80, 0⟩, ⟨"Q5", 70, 0⟩,
       ⟨"Q6", 60, 0⟩, ⟨"Q7", 50, 0⟩, ⟨"Q8", 40, 0⟩, ⟨"Q9", 30, 0⟩, ⟨"Q10", 20, 0⟩]) := by
  apply saveScore_true_without_insertion
  · decide
  · norm_num
  · rfl
  · decide
  · decide

/-- C3: one formation tick always advances `offsetX` by
`speed * direction * dt` without clamping; with no alive-or-dying
enemy it changes nothing else; moving right it reverses and steps
down exactly once iff some participating right edge reaches `maxX`
(symmetrically for the left bound); `offsetY` moves by either zero or
one step-down; and dead enemies never influence the outcome. -/
theorem formation_update_flip_rule (cfg : Config) (fc : FormationController) (dt : ℚ)
    (enemies : List Enemy) :
    (FormationController.update cfg fc dt enemies).offsetX =
        fc.offsetX + fc.speed * fc.direction * dt ∧
    (enemies.filter aliveOrDying = [] →
      FormationController.update cfg fc dt enemies = fc.advance cfg dt) ∧
    ((FormationController.update cfg fc dt enemies).offsetY = fc.offsetY ∨
      (FormationController.update cfg fc dt enemies).offsetY =
        fc.offsetY + fc.stepDownAmount) ∧
    (fc.direction = 1 →
      ((∃ e ∈ enemies.filter aliveOrDying,
          cfg.canvasWidth - cfg.enemyStartX ≤
            enemyRightEdge (fc.offsetX + fc.speed * fc.direction * dt) e) →
        (FormationController.update cfg fc dt enemies).direction = -1 ∧
        (FormationController.update cfg fc dt enemies).offsetY =
          fc.offsetY + fc.stepDownAmount) ∧
      ((∀ e ∈ enemies.filter aliveOrDying,
          enemyRightEdge (fc.offsetX + fc.speed * fc.direction * dt) e <
            cfg.canvasWidth - cfg.enemyStartX) →
        (FormationController.update cfg fc dt enemies).direction = 1 ∧
        (FormationController.update cfg fc dt enemies).offsetY = fc.offsetY)) ∧
    (fc.direction = -1 →
      ((∃ e ∈ enemies.filter aliveOrDying,
          enemyLeftEdge (fc.offsetX + fc.speed * fc.direction * dt) e ≤ fc.minX) →
        (FormationController.update cfg fc dt enemies).direction = 1 ∧
        (FormationController.update cfg fc dt enemies).offsetY =
          fc.offsetY + fc.stepDownAmount) ∧
      ((∀ e ∈ enemies.filter aliveOrDying,
          fc.minX < enemyLeftEdge (fc.offsetX + fc.speed * fc.direction * dt) e) →
        (FormationController.update cfg fc dt enemies).direction = -1 ∧
        (FormationController.update cfg fc dt enemies).offsetY = fc.offsetY)) ∧
    FormationController.update cfg fc dt enemies =
      FormationController.update cfg fc dt (enemies.filter aliveOrDying) := by
  refine ⟨?_, ?_, ?_, ?_, ?_, ?_⟩
  · exact ((applyBoundsCheck_keeps (fc.advance cfg dt) enemies).1).trans rfl
  · intro h
    exact applyBoundsCheck_empty (fc.advance cfg dt) enemies h
  · exact applyBoundsCheck_offsetY (fc.advance cfg dt) enemies
  · intro hdir
    have h01 : 0 < (fc.advance cfg dt).direction := by
      show (0 : ℚ) < fc.direction
      rw [hdir]
      norm_num
    constructor
    · rintro ⟨e, he, hre⟩
      have heq := applyBoundsCheck_flip_right (fc.advance cfg dt) enemies h01 e he hre
      unfold FormationController.update
      rw [heq]
      exact ⟨rfl, rfl⟩
    · intro hall
      have heq := applyBoundsCheck_no_flip_right (fc.advance cfg dt) enemies h01
        (fun e he => hall e he)
      unfold FormationController.update
      rw [heq]
      exact ⟨hdir, rfl⟩
  · intro hdir
    have h01 : (fc.advance cfg dt).direction < 0 := by
      show fc.direction < (0 : ℚ)
      rw [hdir]
      norm_num
    constructor
    · rintro ⟨e, he, hle⟩
      have heq := applyBoundsCheck_flip_left (fc.advance cfg dt) enemies h01 e he hle
      unfold FormationController.update
      rw [heq]
      exact ⟨rfl, rfl⟩
    · intro hall
      have heq := applyBoundsCheck_no_flip_left (fc.advance cfg dt) enemies h01
        (fun e he => hall e he)
      unfold FormationController.update
      rw [heq]
      exact ⟨hdir, rfl⟩
  · simp only [FormationController.update, FormationController.applyBoundsCheck,
      filter_aliveOrDying_idem]

/-- C3 witness: a single enemy whose right edge reaches `maxX = 700`
exactly after the advance (offset 575 → 576, right edge
100 + 576 + 24 = 700) makes one update flip direction to -1 and add
one step-down of 20 to `offsetY`, with `offsetX` advanced unclamped. -/
theorem formation_update_flip_rule_instance :
    (FormationController.update CONFIG ⟨575, 0, 1, 50, 20, 100, 700⟩ (1 / 50)
        [⟨100, 80, 48, 48, true, false, 0, 200⟩]).direction = -1 ∧
    (FormationController.update CONFIG ⟨575, 0, 1, 50, 20, 100, 700⟩ (1 / 50)
        [⟨100, 80, 48, 48, true, false, 0, 200⟩]).offsetY = 20 ∧
    (FormationController.update CONFIG ⟨575, 0, 1, 50, 20, 100, 700⟩ (1 / 50)
        [⟨100, 80, 48, 48, true, false, 0, 200⟩]).offsetX = 576 := by
  have h := formation_update_flip_rule CONFIG ⟨575, 0, 1, 50, 20, 100, 700⟩ (1 / 50)
    [⟨100, 80, 48, 48, true, false, 0, 200⟩]
  have hflip := (h.2.2.2.1 rfl).1 ?_
  · exact ⟨hflip.1, hflip.2.trans (by norm_num), h.1.trans (by norm_num)⟩
  · refine ⟨⟨100, 80, 48, 48, true, false, 0, 200⟩, ?_, ?_⟩
    · simp [aliveOrDying]
    · norm_num [CONFIG, enemyRightEdge]

/-- C1: in one bullets-vs-enemies pass each active bullet hits at
most one enemy: the inner scan selects the first alive, non-dying,
overlapping enemy in list order (dying or dead enemies are skipped,
earlier enemies fail the test), kills exactly that enemy and destroys
the bullet; every emitted event names a distinct bullet, points back
at an input enemy that was alive and not dying and at an output enemy
now dying and an output bullet now inactive; there is exactly one
event per deactivated bullet, inactive bullets pass through
untouched, and the orchestrator's reaction adds `scorePerKill` to the
score exactly once per event. -/
theorem bulletEnemy_first_hit_single (bullets : List Bullet) (enemies : List Enemy)
    (off : FormationOffset) (cfg : Config) (s : ScoreSystem) :
    (∀ j : ℕ, (checkBulletEnemyCollisions bullets enemies off).2.2.countP
        (fun ev => ev.bulletIdx == j) ≤ 1) ∧
    (∀ (i : ℕ) (es2 : List Enemy) (bb : Rect), killFirstHit bb off enemies = some (i, es2) →
      ∃ e, enemies[i]? = some e ∧ e.alive = true ∧ e.dying = false ∧
        rectIntersect bb (e.getBounds off) = true ∧ es2 = enemies.set i e.kill ∧
        e.kill.dying = true ∧
        ∀ j, j < i → ∀ e2, enemies[j]? = some e2 → hitPred bb off e2 = false) ∧
    (∀ ev ∈ (checkBulletEnemyCollisions bullets enemies off).2.2,
      (∃ e, enemies[ev.enemyIdx]? = some e ∧ e.alive = true ∧ e.dying = false) ∧
      (∃ e2, (checkBulletEnemyCollisions bullets enemies off).2.1[ev.enemyIdx]? = some e2 ∧
        e2.dying = true) ∧
      (∃ b2, (checkBulletEnemyCollisions bullets enemies off).1[ev.bulletIdx]? = some b2 ∧
        b2.active = false)) ∧
    (checkBulletEnemyCollisions bullets enemies off).2.2.length =
      ((bullets.zip (checkBulletEnemyCollisions bullets enemies off).1).countP
        (fun p => p.1.active && !p.2.active)) ∧
    (∀ (k : ℕ) (b : Bullet), bullets[k]? = some b → b.active = false →
      (checkBulletEnemyCollisions bullets enemies off).1[k]? = some b) ∧
    (applyKillEvents cfg s (checkBulletEnemyCollisions bullets enemies off).2.2).score =
      s.score + (checkBulletEnemyCollisions bullets enemies off).2.2.length *
        cfg.scorePerKill := by
  refine ⟨?_, ?_, ?_, ?_, ?_, ?_⟩
  · intro j
    exact countP_le_one_of_increasing _ j (pass_events_increasing off bullets enemies 0)
  · intro i es2 bb h
    obtain ⟨e, hget, hhit, hset, hmin⟩ := killFirstHit_some bb off enemies i es2 h
    obtain ⟨halive, hdying, hrect⟩ := (hitPred_spec bb off e).mp hhit
    exact ⟨e, hget, halive, hdying, hrect, hset, (kill_of_alive e halive).2.1, hmin⟩
  · intro ev hev
    obtain ⟨e2, he2a, he2b, -⟩ := pass_event_enemy_out off bullets enemies 0 ev hev
    refine ⟨pass_event_enemy_in off bullets enemies 0 ev hev, ⟨e2, he2a, he2b⟩, ?_⟩
    obtain ⟨k, b2, h1, h2, h3⟩ := pass_event_bullet off bullets enemies 0 ev hev
    have hk : ev.bulletIdx = k := by omega
    rw [hk]
    exact ⟨b2, h2, h3⟩
  · exact pass_events_count off bullets enemies 0
  · intro k b hk hbf
    exact pass_inactive_bullets off bullets enemies 0 k b hk hbf
  · exact applyKillEvents_score cfg _ s

/-- C1 witness: one active bullet at x = 125 geometrically overlaps
both enemies (boxes 76..124 and 126..174 versus 123..127), yet only
the first enemy in list order is killed, the bullet is deactivated,
exactly one event comes out, and the orchestrator adds one
`scorePerKill` of 10. -/
theorem bulletEnemy_first_hit_single_instance :
    (checkBulletEnemyCollisions [⟨125, 80, -500, 4, 12, true⟩]
        [⟨100, 80, 48, 48, true, false, 0, 200⟩, ⟨150, 80, 48, 48, true, false, 0, 200⟩]
        ⟨0, 0⟩).2.2.countP (fun ev => ev.bulletIdx == 0) ≤ 1 ∧
    (∃ e2, (checkBulletEnemyCollisions [⟨125, 80, -500, 4, 12, true⟩]
        [⟨100, 80, 48, 48, true, false, 0, 200⟩, ⟨150, 80, 48, 48, true, false, 0, 200⟩]
        ⟨0, 0⟩).2.1[(0 : ℕ)]? = some e2 ∧ e2.dying = true) ∧
    (∃ b2, (checkBulletEnemyCollisions [⟨125, 80, -500, 4, 12, true⟩]
        [⟨100, 80, 48, 48, true, false, 0, 200⟩, ⟨150, 80, 48, 48, true, false, 0, 200⟩]
        ⟨0, 0⟩).1[(0 : ℕ)]? = some b2 ∧ b2.active = false) ∧
    (checkBulletEnemyCollisions [⟨125, 80, -500, 4, 12, true⟩]
        [⟨100, 80, 48, 48, true, false, 0, 200⟩, ⟨150, 80, 48, 48, true, false, 0, 200⟩]
        ⟨0, 0⟩).2.1[(1 : ℕ)]? =
      some ⟨150, 80, 48, 48, true, false, 0, 200⟩ ∧
    (applyKillEvents CONFIG (ScoreSystem.init CONFIG)
      (checkBulletEnemyCollisions [⟨125, 80, -500, 4, 12, true⟩]
        [⟨100, 80, 48, 48, true, false, 0, 200⟩, ⟨150, 80, 48, 48, true, false, 0, 200⟩]
        ⟨0, 0⟩).2.2).score = 10 := by
  have hhit1 : hitPred (Bullet.getBounds ⟨125, 80, -500, 4, 12, true⟩) ⟨0, 0⟩
      ⟨100, 80, 48, 48, true, false, 0, 200⟩ = true := by
    simp only [hitPred, Bullet.getBounds, Enemy.getBounds, Enemy.getWorldPosition,
      rectIntersect]
    norm_num
  have hkill : killFirstHit (Bullet.getBounds ⟨125, 80, -500, 4, 12, true⟩) ⟨0, 0⟩
      [⟨100, 80, 48, 48, true, false, 0, 200⟩, ⟨150, 80, 48, 48, true, false, 0, 200⟩] =
      some (0, [Enemy.kill ⟨100, 80, 48, 48, true, false, 0, 200⟩,
        ⟨150, 80, 48, 48, true, false, 0, 200⟩]) := by
    simp [killFirstHit, hhit1]
  have hpass : checkBulletEnemyCollisions [⟨125, 80, -500, 4, 12, true⟩]
      [⟨100, 80, 48, 48, true, false, 0, 200⟩, ⟨150, 80, 48, 48, true, false, 0, 200⟩]
      ⟨0, 0⟩ =
      ([Bullet.destroy ⟨125, 80, -500, 4, 12, true⟩],
       [Enemy.kill ⟨100, 80, 48, 48, true, false, 0, 200⟩,
        ⟨150, 80, 48, 48, true, false, 0, 200⟩], [⟨0, 0⟩]) := by
    show bulletEnemyPass ⟨0, 0⟩ _ _ 0 = _
    rw [pass_cons_hit ⟨0, 0⟩ ⟨125, 80, -500, 4, 12, true⟩ []
      [⟨100, 80, 48, 48, true, false, 0, 200⟩, ⟨150, 80, 48, 48, true, false, 0, 200⟩] 0 0
      [Enemy.kill ⟨100, 80, 48, 48, true, false, 0, 200⟩,
       ⟨150, 80, 48, 48, true, false, 0, 200⟩] rfl hkill]
    rfl
  have h := bulletEnemy_first_hit_single [⟨125, 80, -500, 4, 12, true⟩]
    [⟨100, 80, 48, 48, true, false, 0, 200⟩, ⟨150, 80, 48, 48, true, false, 0, 200⟩]
    ⟨0, 0⟩ CONFIG (ScoreSystem.init CONFIG)
  have hmem : (⟨0, 0⟩ : BEEvent) ∈ (checkBulletEnemyCollisions [⟨125, 80, -500, 4, 12, true⟩]
      [⟨100, 80, 48, 48, true, false, 0, 200⟩, ⟨150, 80, 48, 48, true, false, 0, 200⟩]
      ⟨0, 0⟩).2.2 := by
    rw [hpass]
    simp
  refine ⟨h.1 0, (h.2.2.1 ⟨0, 0⟩ hmem).2.1, (h.2.2.1 ⟨0, 0⟩ hmem).2.2, ?_, ?_⟩
  · rw [hpass]
    rfl
  · rw [hpass]
    dsimp only
    have hs := h.2.2.2.2.2
    rw [hpass] at hs
    dsimp only at hs
    rw [hs]
    norm_num [ScoreSystem.init, CONFIG]

/-- C10: `checkEnemyReachBottom` skips only enemies with a false
alive flag: an enemy that is dying but still alive, whose world
bottom edge is at or past the bottom line, still triggers the
bottom-line event and the resulting life loss, even though the same
enemy is excluded from the bullet and power-attack collision passes;
the dying flag itself never affects the bottom-line test. -/
theorem reachBottom_includes_dying (cfg : Config) (s : ScoreSystem)
    (enemies : List Enemy) (off : FormationOffset) (e : Enemy)
    (he : e ∈ enemies) (halive : e.alive = true) (hdying : e.dying = true)
    (hbottom : (e.getWorldPosition off).2 + e.height / 2 ≥ cfg.bottomLine) :
    checkEnemyReachBottom enemies off cfg.bottomLine = true ∧
    (handleBottomCheck cfg s enemies off).lives = max 0 (s.lives - 1) ∧
    (∀ bb : Rect, hitPred bb off e = false) ∧
    (∀ e2 : Enemy, e2.alive = false → reachesBottomPred off cfg.bottomLine e2 = false) ∧
    (∀ (e2 : Enemy) (b : Bool),
      reachesBottomPred off cfg.bottomLine { e2 with dying := b } =
        reachesBottomPred off cfg.bottomLine e2) := by
  have hp : reachesBottomPred off cfg.bottomLine e = true := by
    simp [reachesBottomPred, halive, hbottom]
  have hcheck : checkEnemyReachBottom enemies off cfg.bottomLine = true :=
    List.any_eq_true.mpr ⟨e, he, hp⟩
  refine ⟨hcheck, ?_, ?_, ?_, ?_⟩
  · simp [handleBottomCheck, hcheck, ScoreSystem.loseLife]
  · intro bb
    simp [hitPred, hdying]
  · intro e2 h2
    simp [reachesBottomPred, h2]
  · intro e2 b
    rfl

/-- C10 witness: a dying-but-alive enemy (death timer at 150 ms) with
bottom edge 80 + 370 + 24 = 474 past the 470 bottom line triggers the
check and costs a life (3 → 2), while no bullet box can hit it. -/
theorem reachBottom_includes_dying_instance :
    checkEnemyReachBottom [⟨100, 80, 48, 48, true, true, 150, 200⟩] ⟨0, 370⟩
      CONFIG.bottomLine = true ∧
    (handleBottomCheck CONFIG ⟨0, 3, 0, 100, ""⟩
      [⟨100, 80, 48, 48, true, true, 150, 200⟩] ⟨0, 370⟩).lives = 2 ∧
    hitPred ⟨123, 74, 4, 12⟩ ⟨0, 370⟩ ⟨100, 80, 48, 48, true, true, 150, 200⟩ = false := by
  have h := reachBottom_includes_dying CONFIG ⟨0, 3, 0, 100, ""⟩
    [⟨100, 80, 48, 48, true, true, 150, 200⟩] ⟨0, 370⟩
    ⟨100, 80, 48, 48, true, true, 150, 200⟩ (by simp) rfl rfl
    (by norm_num [Enemy.getWorldPosition, CONFIG])
  exact ⟨h.1, h.2.1.trans (by norm_num), h.2.2.1 ⟨123, 74, 4, 12⟩⟩

end Turia
